import Mathlib

set_option maxRecDepth 8192

/-!
Verification of the request-processing pipeline of a signed-message ingestion
proxy (rule engine, metrics store, authenticator, dispatcher, orchestrator).

The definitions below are a shallow embedding of the Python sources:
  app/services/proxy_rules.py   (rule engine)
  app/services/stats.py         (LRU-bounded metrics store)
  app/services/security.py      (HMAC-SHA256 authenticator)
  app/routers/stream.py         (pipeline orchestrator)

Modelling conventions:
  * Python bytes are `List Nat` (each element < 256 by convention).
  * Python `int` is `Int`, sizes/lengths are `Nat`, float accumulators are
    `Rat` (no claim below depends on binary floating-point rounding).
  * Python exceptions are `Except` values: `_evaluate_condition` can raise
    `TypeError` (modelled as `Except Unit Bool`), the route handler surfaces
    `HTTPException(status, detail)` as `Except (Nat × String)`.
  * A Python object inspected via `hasattr`/`getattr`/`isinstance`
    (the Pokemon protobuf message) is an `Entity`: an association list from
    attribute name to a typed value.  The generated protobuf class is not part
    of the sources; its scalar fields (strings, ints, one bool) determine the
    three `FieldValue` variants.  `isinstance(x, bool)` is tested before
    `isinstance(x, int)` in the source, which the disjoint variants reflect.
  * Character classes of the condition regex (`\w`, `\s`) and `str.lower` are
    modelled over ASCII; no claim depends on non-ASCII code points.
-/

instance {ε α : Type} [DecidableEq ε] [DecidableEq α] : DecidableEq (Except ε α) := fun a b =>
  match a, b with
  | .ok x, .ok y =>
    if h : x = y then .isTrue (h ▸ rfl) else .isFalse (fun c => h (Except.ok.inj c))
  | .error x, .error y =>
    if h : x = y then .isTrue (h ▸ rfl) else .isFalse (fun c => h (Except.error.inj c))
  | .ok _, .error _ => .isFalse (fun c => Except.noConfusion c)
  | .error _, .ok _ => .isFalse (fun c => Except.noConfusion c)

/-- A typed runtime attribute value of the entity record
(Python `bool`, `int` or `str`). -/
inductive FieldValue where
  | bool (b : Bool)
  | int (i : Int)
  | str (s : String)
deriving DecidableEq, Repr

/-- An entity (decoded Pokemon message) as seen by the rule engine:
an attribute table.  `hasattr`/`getattr` become association-list lookup. -/
structure Entity where
  fields : List (String × FieldValue)
deriving DecidableEq, Repr

/-- Model of `getattr` if `hasattr`, else `none`. -/
def lookupField (e : Entity) (name : String) : Option FieldValue :=
  e.fields.lookup name

/-- A routing rule (`ProxyRule` dataclass).  The Python field `match` is a
Lean keyword, hence `match_`. -/
structure ProxyRule where
  url : String
  reason : String
  match_ : List String
deriving DecidableEq, Repr

/-- Python `\s` over ASCII: space, tab, newline, carriage return,
vertical tab, form feed. -/
def isSpaceChar (c : Char) : Bool :=
  c = ' ' || c = '\t' || c = '\n' || c = '\r' || c = Char.ofNat 11 || c = Char.ofNat 12

/-- Python `\w` over ASCII: letters, digits, underscore. -/
def isWordChar (c : Char) : Bool :=
  c.isAlphanum || c = '_'

/-- The operator alternation `(==|!=|>|<)` of `_MATCH_PATTERN`:
returns the matched operator and the remaining characters. -/
def matchOperator : List Char → Option (String × List Char)
  | '=' :: '=' :: r => some ("==", r)
  | '!' :: '=' :: r => some ("!=", r)
  | '>' :: r => some (">", r)
  | '<' :: r => some ("<", r)
  | _ => none

/-- Model of `_MATCH_PATTERN.match(condition)` for the regex
`^\s*(\w+)\s*(==|!=|>|<)\s*(.+?)\s*$`, reproducing the backtracking
engine: leading whitespace, a maximal nonempty word-character run (no
operator starts with a word character, so greedy matching is exact),
optional whitespace, the operator, then `\s*(.+?)\s*$`.  When the
remainder after the operator holds a non-whitespace character, the lazy
group captures from the first to the last such character, and the match
fails if a newline lies between them (`.` does not match `\n`).  When the
remainder is whitespace only, the greedy `\s*` backtracks and the lazy
group still captures a single whitespace character — the last one that is
not a newline — so a whitespace-only literal is a real match (for example
the condition `hp>` followed by two spaces parses with the one-space
value); only a remainder that is empty or all newlines fails.  (Checked
against CPython `re` on every string up to length 6 over a 16-character
alphabet of word, whitespace and operator characters, and on random longer
strings.) -/
def parseCondition (condition : String) : Option (String × String × String) :=
  let cs := condition.toList.dropWhile isSpaceChar
  let name := cs.takeWhile isWordChar
  let rest := cs.dropWhile isWordChar
  if name.isEmpty then none
  else
    match matchOperator (rest.dropWhile isSpaceChar) with
    | none => none
    | some (op, afterOp) =>
      let core := ((afterOp.dropWhile isSpaceChar).reverse.dropWhile isSpaceChar).reverse
      if core.isEmpty then
        match afterOp.reverse.dropWhile (fun c => c = '\n') with
        | [] => none
        | c :: _ => some (String.mk name, op, String.mk [c])
      else if core.contains '\n' then none
      else some (String.mk name, op, String.mk core)

/-- One digit-or-underscore tail of a Python integer literal: underscores may
appear only singly and only between digits. -/
def digitTail : List Char → Bool
  | [] => true
  | '_' :: c :: r => c.isDigit && digitTail r
  | '_' :: [] => false
  | c :: r => c.isDigit && digitTail r

/-- A nonempty digit run with single underscores between digits. -/
def digitRun : List Char → Bool
  | [] => false
  | c :: r => c.isDigit && digitTail r

/-- Digits-to-number, ignoring underscores (validity checked by `digitRun`). -/
def digitsVal (cs : List Char) : Nat :=
  cs.foldl (fun acc c => if c = '_' then acc else acc * 10 + (c.toNat - 48)) 0

/-- Python `int(s)` on a string: optional surrounding whitespace, optional
sign, then digits with single underscores between digits; `none` models
`ValueError`.  (Non-ASCII digits are not modelled.) -/
def pyIntParse (s : String) : Option Int :=
  let cs := s.toList.dropWhile isSpaceChar
  let cs := (cs.reverse.dropWhile isSpaceChar).reverse
  match cs with
  | '+' :: r => if digitRun r then some (digitsVal r) else none
  | '-' :: r => if digitRun r then some (-(digitsVal r : Int)) else none
  | r => if digitRun r then some (digitsVal r) else none

/-- ASCII lowercasing of one character (model of `str.lower`). -/
def charLowerAscii (c : Char) : Char :=
  if 'A' ≤ c && c ≤ 'Z' then Char.ofNat (c.toNat + 32) else c

/-- ASCII model of Python `str.lower()`. -/
def strLower (s : String) : String :=
  String.mk (s.data.map charLowerAscii)

/-- Lexicographic code-point comparison of character lists (Python `str` <). -/
def charListLt : List Char → List Char → Bool
  | [], [] => false
  | [], _ :: _ => true
  | _ :: _, [] => false
  | a :: as, b :: bs =>
    if a.toNat < b.toNat then true
    else if b.toNat < a.toNat then false
    else charListLt as bs

/-- Python `s < t` on strings: lexicographic by code point. -/
def pyStrLt (s t : String) : Bool := charListLt s.data t.data

/-- The coerced comparison literal: Python keeps it as `bool`, `int` or `str`
depending on the field's runtime type (falling back to the raw string when
`int()` raises). -/
inductive PyVal where
  | bool (b : Bool)
  | int (i : Int)
  | str (s : String)
deriving DecidableEq, Repr

/-- The literal-coercion step of `_evaluate_condition`: boolean fields use
truthy-token matching, integer fields use `int()` with raw-string fallback,
all other fields compare as strings. -/
def coerceExpected (fv : FieldValue) (raw : String) : PyVal :=
  match fv with
  | .bool _ => .bool (strLower raw = "true" || strLower raw = "1" || strLower raw = "yes")
  | .int _ =>
    match pyIntParse raw with
    | some n => .int n
    | none => .str raw
  | .str _ => .str raw

/-- Python `field_value == expected` for the value pairs reachable from
`coerceExpected` (cross-type `==` in Python is `False`, never an error). -/
def pyEq : FieldValue → PyVal → Bool
  | .bool b, .bool c => b == c
  | .int i, .int j => i == j
  | .str s, .str t => s == t
  | _, _ => false

/-- Python `field_value > expected`: `bool > bool` compares as 0/1 integers,
`int > int` numerically, `str > str` lexicographically by code point, and
`int > str` raises `TypeError` (the `.error` case).  Pairs unreachable from
`coerceExpected` also raise in Python. -/
def pyGt : FieldValue → PyVal → Except Unit Bool
  | .bool b, .bool c => .ok (decide ((if c then (1 : Nat) else 0) < (if b then 1 else 0)))
  | .int i, .int j => .ok (decide (j < i))
  | .str s, .str t => .ok (pyStrLt t s)
  | _, _ => .error ()

/-- Python `field_value < expected`; same shape as `pyGt`. -/
def pyLt : FieldValue → PyVal → Except Unit Bool
  | .bool b, .bool c => .ok (decide ((if b then (1 : Nat) else 0) < (if c then 1 else 0)))
  | .int i, .int j => .ok (decide (i < j))
  | .str s, .str t => .ok (pyStrLt s t)
  | _, _ => .error ()

/-- The operator dispatch at the end of `_evaluate_condition`; the final
`return False` is unreachable for operators produced by the regex. -/
def applyOperator (op : String) (fv : FieldValue) (exp : PyVal) : Except Unit Bool :=
  if op = "==" then .ok (pyEq fv exp)
  else if op = "!=" then .ok (!pyEq fv exp)
  else if op = ">" then pyGt fv exp
  else if op = "<" then pyLt fv exp
  else .ok false

/-- Model of `_evaluate_condition(pokemon, condition)`: regex parse (no match means
`False`), attribute existence check (unknown field means `False`), literal
coercion, then operator evaluation, which may raise `TypeError`. -/
def _evaluate_condition (e : Entity) (condition : String) : Except Unit Bool :=
  match parseCondition condition with
  | none => .ok false
  | some (field_name, operator, expected_value) =>
    match lookupField e field_name with
    | none => .ok false
    | some field_value =>
      applyOperator operator field_value (coerceExpected field_value expected_value)

/-- Model of `all(_evaluate_condition(pokemon, cond) for cond in conds)`: left-to-right
with short-circuit on the first false condition; an exception propagates. -/
def allConditions (e : Entity) : List String → Except Unit Bool
  | [] => .ok true
  | c :: cs =>
    match _evaluate_condition e c with
    | .error u => .error u
    | .ok false => .ok false
    | .ok true => allConditions e cs

/-- Model of `find_matching_rule(pokemon, rules)`: first rule whose conditions all
evaluate true; `none` when the list is exhausted; a raised `TypeError`
propagates. -/
def find_matching_rule (e : Entity) : List ProxyRule → Except Unit (Option ProxyRule)
  | [] => .ok none
  | r :: rs =>
    match allConditions e r.match_ with
    | .error u => .error u
    | .ok true => .ok (some r)
    | .ok false => find_matching_rule e rs

/-! ## Metrics store (`app/services/stats.py`)

`StatsCollector` holds an `OrderedDict[str, EndpointStats]`; the front of the
list is the least-recently-used entry, the back the most-recently-used.  The
`asyncio.Lock` serialises mutations; under the lock each `record_request` is
one atomic state transition, which is what the step function below models.
Keys of an `OrderedDict` are unique, which here is the `(statsKeys s).Nodup`
invariant (established from the empty store, preserved by every step). -/

/-- Maximum number of endpoints to track (`MAX_ENDPOINTS`). -/
def MAX_ENDPOINTS : Nat := 1000

/-- Per-endpoint counters (`EndpointStats` dataclass). -/
structure EndpointStats where
  request_count : Nat
  error_count : Nat
  incoming_bytes : Nat
  outgoing_bytes : Nat
  total_response_time_ms : Rat
deriving DecidableEq, Repr

/-- The zeroed counters a fresh endpoint starts from (`EndpointStats()`). -/
def zeroStats : EndpointStats := ⟨0, 0, 0, 0, 0⟩

/-- The `error_rate` property: `error_count/request_count*100`, `0` when
`request_count == 0`. -/
def EndpointStats.error_rate (st : EndpointStats) : Rat :=
  if st.request_count = 0 then 0 else (st.error_count : Rat) / (st.request_count : Rat) * 100

/-- The `avg_response_time_ms` property: cumulative time over count, `0` when
`request_count == 0`. -/
def EndpointStats.avg_response_time_ms (st : EndpointStats) : Rat :=
  if st.request_count = 0 then 0 else st.total_response_time_ms / (st.request_count : Rat)

/-- Rounding to two decimals.  (CPython `round` is round-half-to-even on
binary floats; no claim below depends on tie behavior, so half-up rounding on
exact rationals stands in for it.) -/
def roundTo2 (q : Rat) : Rat := ((round (q * 100) : Int) : Rat) / 100

/-- The shape of `EndpointStats.to_dict()`: the rendered counters of one endpoint. -/
structure RenderedStats where
  request_count : Nat
  error_count : Nat
  error_rate_percent : Rat
  incoming_bytes : Nat
  outgoing_bytes : Nat
  avg_response_time_ms : Rat
deriving DecidableEq, Repr

/-- Model of `to_dict` of one `EndpointStats`. -/
def EndpointStats.to_dict (st : EndpointStats) : RenderedStats :=
  ⟨st.request_count, st.error_count, roundTo2 st.error_rate,
   st.incoming_bytes, st.outgoing_bytes, roundTo2 st.avg_response_time_ms⟩

/-- The collector state: the `OrderedDict` as an association list,
least-recently-used first. -/
abbrev StatsState : Type := List (String × EndpointStats)

/-- The keys of the store, in LRU-to-MRU order. -/
def statsKeys (s : StatsState) : List String := s.map Prod.fst

/-- The counter increments shared by both branches of `record_request`. -/
def bumpStats (st : EndpointStats) (incoming outgoing : Nat) (rt : Rat)
    (is_error : Bool) : EndpointStats :=
  { request_count := st.request_count + 1
    error_count := st.error_count + (if is_error then 1 else 0)
    incoming_bytes := st.incoming_bytes + incoming
    outgoing_bytes := st.outgoing_bytes + outgoing
    total_response_time_ms := st.total_response_time_ms + rt }

/-- Model of `StatsCollector.record_request` under the lock: an unseen url first
evicts the oldest entry (`popitem(last=False)`) when the store is at
capacity and is appended with zeroed counters; a seen url is moved to the
most-recently-used end (`move_to_end`; the filter removes exactly that entry
because `OrderedDict` keys are unique).  Either way the entry's counters are
then incremented. -/
def record_request (url : String) (incoming_bytes outgoing_bytes : Nat)
    (response_time_ms : Rat) (is_error : Bool) (s : StatsState) : StatsState :=
  match s.lookup url with
  | none =>
    let s1 := if MAX_ENDPOINTS ≤ s.length then s.drop 1 else s
    s1 ++ [(url, bumpStats zeroStats incoming_bytes outgoing_bytes response_time_ms is_error)]
  | some st =>
    (s.filter fun p => p.1 ≠ url) ++
      [(url, bumpStats st incoming_bytes outgoing_bytes response_time_ms is_error)]

/-- Model of `StatsCollector.get_all_stats`: point-in-time rendering of every entry. -/
def get_all_stats (s : StatsState) : List (String × RenderedStats) :=
  s.map fun p => (p.1, p.2.to_dict)

/-- One recorded request, as passed to `record_request`. -/
structure RecordCall where
  url : String
  incoming_bytes : Nat
  outgoing_bytes : Nat
  response_time_ms : Rat
  is_error : Bool
deriving DecidableEq, Repr

/-- Apply a sequence of `record_request` calls, oldest first. -/
def applyCalls (calls : List RecordCall) (s : StatsState) : StatsState :=
  calls.foldl
    (fun st c => record_request c.url c.incoming_bytes c.outgoing_bytes
      c.response_time_ms c.is_error st) s

/-! ## Authenticator (`app/services/security.py`)

`validate_signature` computes `hmac.new(secret, body, hashlib.sha256)
.hexdigest()` and compares it to the presented signature with
`hmac.compare_digest`.  SHA-256 and HMAC are implemented below over `Nat`
words reduced mod `2^32`, exactly following FIPS 180-4 / RFC 2104, so the
digest function is the real one, not an oracle. -/

/-- Truncation to a 32-bit word. -/
def mod32 (x : Nat) : Nat := x % 4294967296

/-- Right rotation of a 32-bit word. -/
def rotr32 (n x : Nat) : Nat := mod32 ((x >>> n) ||| (x <<< (32 - n)))

/-- SHA-256 `Ch(e,f,g)`; 32-bit complement is xor with `0xffffffff`. -/
def shaCh (e f g : Nat) : Nat := (e &&& f) ^^^ ((e ^^^ 4294967295) &&& g)

/-- SHA-256 `Maj(a,b,c)`. -/
def shaMaj (a b c : Nat) : Nat := (a &&& b) ^^^ (a &&& c) ^^^ (b &&& c)

/-- SHA-256 `Σ₀`. -/
def shaBigSigma0 (x : Nat) : Nat := rotr32 2 x ^^^ rotr32 13 x ^^^ rotr32 22 x

/-- SHA-256 `Σ₁`. -/
def shaBigSigma1 (x : Nat) : Nat := rotr32 6 x ^^^ rotr32 11 x ^^^ rotr32 25 x

/-- SHA-256 `σ₀`. -/
def shaSmallSigma0 (x : Nat) : Nat := rotr32 7 x ^^^ rotr32 18 x ^^^ (x >>> 3)

/-- SHA-256 `σ₁`. -/
def shaSmallSigma1 (x : Nat) : Nat := rotr32 17 x ^^^ rotr32 19 x ^^^ (x >>> 10)

/-- The 64 SHA-256 round constants (FIPS 180-4, written in decimal). -/
def shaK : Array Nat := #[
  1116352408, 1899447441, 3049323471, 3921009573, 961987163, 1508970993,
  2453635748, 2870763221, 3624381080, 310598401, 607225278, 1426881987,
  1925078388, 2162078206, 2614888103, 3248222580, 3835390401, 4022224774,
  264347078, 604807628, 770255983, 1249150122, 1555081692, 1996064986,
  2554220882, 2821834349, 2952996808, 3210313671, 3336571891, 3584528711,
  113926993, 338241895, 666307205, 773529912, 1294757372, 1396182291,
  1695183700, 1986661051, 2177026350, 2456956037, 2730485921, 2820302411,
  3259730800, 3345764771, 3516065817, 3600352804, 4094571909, 275423344,
  430227734, 506948616, 659060556, 883997877, 958139571, 1322822218,
  1537002063, 1747873779, 1955562222, 2024104815, 2227730452, 2361852424,
  2428436474, 2756734187, 3204031479, 3329325298]

/-- The eight SHA-256 initial hash words. -/
structure Hash8 where
  h0 : Nat
  h1 : Nat
  h2 : Nat
  h3 : Nat
  h4 : Nat
  h5 : Nat
  h6 : Nat
  h7 : Nat
deriving DecidableEq, Repr

/-- SHA-256 initial hash value. -/
def shaH0 : Hash8 :=
  ⟨1779033703, 3144134277, 1013904242, 2773480762, 1359893119, 2600822924, 528734635, 1541459225⟩

/-- The first 16 words of the message schedule: four big-endian bytes each. -/
def blockWords (block : List Nat) : Array Nat :=
  (List.range 16).foldl
    (fun w t =>
      w.push (mod32 ((block.getD (4 * t) 0) <<< 24 ||| (block.getD (4 * t + 1) 0) <<< 16 |||
        (block.getD (4 * t + 2) 0) <<< 8 ||| block.getD (4 * t + 3) 0)))
    #[]

/-- Words 16..63 of the message schedule. -/
def extendWords (w : Array Nat) : Array Nat :=
  (List.range 48).foldl
    (fun w i =>
      let t := i + 16
      w.push (mod32 (shaSmallSigma1 (w.getD (t - 2) 0) + w.getD (t - 7) 0 +
        shaSmallSigma0 (w.getD (t - 15) 0) + w.getD (t - 16) 0)))
    w

/-- One SHA-256 round. -/
def shaRound (k wt : Nat) (s : Hash8) : Hash8 :=
  let t1 := mod32 (s.h7 + shaBigSigma1 s.h4 + shaCh s.h4 s.h5 s.h6 + k + wt)
  let t2 := mod32 (shaBigSigma0 s.h0 + shaMaj s.h0 s.h1 s.h2)
  ⟨mod32 (t1 + t2), s.h0, s.h1, s.h2, mod32 (s.h3 + t1), s.h4, s.h5, s.h6⟩

/-- SHA-256 compression of one 64-byte block into the running hash. -/
def shaCompress (h : Hash8) (block : List Nat) : Hash8 :=
  let w := extendWords (blockWords block)
  let s := (List.range 64).foldl (fun s t => shaRound (shaK.getD t 0) (w.getD t 0) s) h
  ⟨mod32 (h.h0 + s.h0), mod32 (h.h1 + s.h1), mod32 (h.h2 + s.h2), mod32 (h.h3 + s.h3),
   mod32 (h.h4 + s.h4), mod32 (h.h5 + s.h5), mod32 (h.h6 + s.h6), mod32 (h.h7 + s.h7)⟩

/-- Big-endian 8-byte encoding of the bit length. -/
def be64 (n : Nat) : List Nat :=
  [n >>> 56 &&& 255, n >>> 48 &&& 255, n >>> 40 &&& 255, n >>> 32 &&& 255,
   n >>> 24 &&& 255, n >>> 16 &&& 255, n >>> 8 &&& 255, n &&& 255]

/-- SHA-256 padding: `0x80`, zeros to 56 mod 64, then the 64-bit bit length. -/
def shaPad (msg : List Nat) : List Nat :=
  let L := msg.length
  msg ++ 128 :: List.replicate ((64 - (L + 9) % 64) % 64) 0 ++ be64 (8 * L)

/-- Split a byte list into 64-byte blocks (structural recursion on a fuel
bound so the kernel can evaluate it; `l.length` steps always suffice). -/
def toBlocksAux : Nat → List Nat → List (List Nat)
  | 0, _ => []
  | _, [] => []
  | fuel + 1, l => l.take 64 :: toBlocksAux fuel (l.drop 64)

/-- Split a byte list into 64-byte blocks. -/
def toBlocks (l : List Nat) : List (List Nat) :=
  toBlocksAux l.length l

/-- The final hash words of a message. -/
def sha256Words (msg : List Nat) : Hash8 :=
  (toBlocks (shaPad msg)).foldl shaCompress shaH0

/-- Big-endian 4-byte encoding of one hash word. -/
def be32 (n : Nat) : List Nat :=
  [n >>> 24 &&& 255, n >>> 16 &&& 255, n >>> 8 &&& 255, n &&& 255]

/-- Model of `hashlib.sha256(msg).digest()`: the 32 digest bytes. -/
def sha256Bytes (msg : List Nat) : List Nat :=
  let h := sha256Words msg
  be32 h.h0 ++ be32 h.h1 ++ be32 h.h2 ++ be32 h.h3 ++
  be32 h.h4 ++ be32 h.h5 ++ be32 h.h6 ++ be32 h.h7

/-- One lowercase hex digit. -/
def hexDigit (n : Nat) : Char :=
  if n < 10 then Char.ofNat (48 + n) else Char.ofNat (87 + n)

/-- Lowercase hex encoding of a byte list. -/
def bytesToHex (bs : List Nat) : String :=
  String.mk (bs.foldr (fun b cs => hexDigit (b >>> 4 &&& 15) :: hexDigit (b &&& 15) :: cs) [])

/-- A lowercase hexadecimal digit character — the only characters
`hexdigest()` output consists of. -/
def isLowerHexChar (c : Char) : Bool :=
  c.isDigit || ('a' ≤ c && c ≤ 'f')

/-- Model of `hmac.new(key, msg, hashlib.sha256).digest()` (RFC 2104, block size 64):
a key longer than the block is first hashed, the key is zero-padded to the
block size, and the digest is `H(K⊕opad ∥ H(K⊕ipad ∥ msg))`. -/
def hmacSha256 (key msg : List Nat) : List Nat :=
  let k0 := if 64 < key.length then sha256Bytes key else key
  let kPad := k0 ++ List.replicate (64 - k0.length) 0
  sha256Bytes ((kPad.map (· ^^^ 92)) ++ sha256Bytes ((kPad.map (· ^^^ 54)) ++ msg))

/-- Model of `hmac.new(key, msg, hashlib.sha256).hexdigest()`: lowercase hex. -/
def hmacSha256Hex (key msg : List Nat) : String :=
  bytesToHex (hmacSha256 key msg)

/-- Model of `validate_signature(body, signature, secret)`: the lowercase hex HMAC of
the body is compared to the presented signature.  `hmac.compare_digest` on a
64-character ASCII digest equals plain string equality in outcome; the
`TypeError` it raises on a non-ASCII signature is caught by the
`except (ValueError, TypeError)` and returned as `False`, which again
coincides with inequality, so the whole function is this total comparison. -/
def validate_signature (body : List Nat) (signature : String) (secret : List Nat) : Bool :=
  decide (hmacSha256Hex secret body = signature)

/-! ## Pipeline orchestrator (`app/routers/stream.py`)

The `stream` handler is modelled as a function of its request input plus the
outcomes of its external collaborators: the protobuf decode result (the
generated `pokemon_pb2` class is not part of the sources), the serialized
JSON length, the transport outcome of `forward_request`, and the wall-clock
span measured around the dispatch.  The function returns the HTTP outcome
together with the list of `record_request` calls made, in order. -/

/-- The inbound request as `validate_request_signature` sees it:
the `Content-Length` and `X-Grd-Signature` headers (absent headers are
`none`), the configured secret (`app_state.secret`), the raw body, and the
configured maximum body size. -/
structure AuthInput where
  content_length : Option String
  signature : Option String
  secret : Option (List Nat)
  body : List Nat
  max_body_size : Nat

/-- The early `Content-Length` screen of `validate_request_signature`:
a present, non-empty header that parses as an integer above the limit is
rejected with 413; a header that raises `ValueError` in `int()` is silently
ignored (the `except ValueError: pass`), as is an absent or empty one. -/
def contentLengthCheck (max_body_size : Nat) (cl : Option String) : Except (Nat × String) Unit :=
  match cl with
  | none => .ok ()
  | some s =>
    if s = "" then .ok ()
    else
      match pyIntParse s with
      | none => .ok ()
      | some n => if (max_body_size : Int) < n then .error (413, "Request body too large") else .ok ()

/-- Model of `validate_request_signature(request)`: Content-Length screen, missing or
empty signature header (401), unconfigured secret (500), body read followed
by the actual-size check (413), empty body (400), then signature
verification (401); success returns the body bytes. -/
def validate_request_signature (inp : AuthInput) : Except (Nat × String) (List Nat) :=
  match contentLengthCheck inp.max_body_size inp.content_length with
  | .error e => .error e
  | .ok () =>
    match inp.signature with
    | none => .error (401, "Missing X-Grd-Signature header")
    | some sig =>
      if sig = "" then .error (401, "Missing X-Grd-Signature header")
      else
        match inp.secret with
        | none => .error (500, "Internal server error")
        | some secret =>
          if inp.max_body_size < inp.body.length then .error (413, "Request body too large")
          else if inp.body = [] then .error (400, "Empty request body")
          else if validate_signature inp.body sig secret then .ok inp.body
          else .error (401, "Invalid signature")

/-- The transport failures `forward_request` can raise, as classified by the
`isinstance` chain of `_map_downstream_error` (in httpx a timeout is itself a
`RequestError`, but it is tested first, so the three cases are disjoint). -/
inductive TransportError where
  | timeout
  | requestError
  | unexpected
deriving DecidableEq, Repr

/-- Model of `_map_downstream_error`: timeout to 504, connection error to 502,
anything else to 502. -/
def _map_downstream_error : TransportError → Nat × String
  | .timeout => (504, "Downstream service timeout")
  | .requestError => (502, "Failed to connect to downstream service")
  | .unexpected => (502, "Failed to forward request to downstream")

/-- The hop-by-hop header denylist (`HOP_BY_HOP_HEADERS`). -/
def HOP_BY_HOP_HEADERS : List String :=
  ["connection", "keep-alive", "transfer-encoding", "content-encoding", "te", "trailers", "upgrade"]

/-- Model of `_filter_response_headers`: drop the hop-by-hop denylist,
case-insensitively. -/
def _filter_response_headers (headers : List (String × String)) : List (String × String) :=
  headers.filter fun p => ¬ (strLower p.1 ∈ HOP_BY_HOP_HEADERS)

/-- A downstream HTTP response (status, headers, body). -/
structure DownstreamResponse where
  status_code : Nat
  headers : List (String × String)
  content : String
deriving DecidableEq, Repr

/-- What the `stream` handler returns to the boundary layer: a `Response`,
a raised `HTTPException`, or the uncaught `TypeError` that
`find_matching_rule` can propagate. -/
inductive StreamResult where
  | response (status : Nat) (headers : List (String × String)) (content : String)
  | httpError (status : Nat) (detail : String)
  | typeError
deriving DecidableEq, Repr

/-- The fixed no-match payload, byte for byte
(`Response(content='\x7b"status": "no_match"\x7d')`). -/
def noMatchBody : String := "\x7b\"status\": \"no_match\"\x7d"

/-- The sentinel destination identity for unmatched requests. -/
def unmatchedUrl : String := "__unmatched__"

/-- The `is_error` computation of the handler:
`error is not None or downstream_response.status_code >= 400`. -/
def dispatch_is_error (dispatchResult : Except TransportError DownstreamResponse) : Bool :=
  match dispatchResult with
  | .error _ => true
  | .ok r => decide (400 ≤ r.status_code)

/-- The `stream` handler: signature validation, protobuf decode, rule
matching, the no-match shortcut (recorded against the sentinel identity),
the `http_client` presence check, then dispatch with `is_error` computed as
`error is not None or downstream_response.status_code >= 400` before the
single `record_request` call, after which a transport failure is mapped by
`_map_downstream_error` and a response is relayed with hop-by-hop headers
filtered.  External collaborators appear as parameters: `decodeResult`
(protobuf parse plus required-field validation), `clientReady`
(`app_state.http_client is not None`), `outgoingBytes` (the serialized JSON
length), `dispatchResult` and `elapsedMs`. -/
def stream (inp : AuthInput) (decodeResult : Except (Nat × String) Entity)
    (rules : List ProxyRule) (clientReady : Bool) (outgoingBytes : Nat)
    (dispatchResult : Except TransportError DownstreamResponse) (elapsedMs : Rat) :
    StreamResult × List RecordCall :=
  match validate_request_signature inp with
  | .error e => (.httpError e.1 e.2, [])
  | .ok body =>
    match decodeResult with
    | .error e => (.httpError e.1 e.2, [])
    | .ok pokemon =>
      match find_matching_rule pokemon rules with
      | .error _ => (.typeError, [])
      | .ok none =>
        (.response 200 [("content-type", "application/json")] noMatchBody,
         [⟨unmatchedUrl, body.length, 0, 0, false⟩])
      | .ok (some rule) =>
        if clientReady = false then (.httpError 500 "Internal server error", [])
        else
          let call : RecordCall :=
            ⟨rule.url, body.length, outgoingBytes, elapsedMs, dispatch_is_error dispatchResult⟩
          match dispatchResult with
          | .error err =>
            ((.httpError (_map_downstream_error err).1 (_map_downstream_error err).2), [call])
          | .ok r =>
            (.response r.status_code (_filter_response_headers r.headers) r.content, [call])

/-! ## Witness inputs

Concrete data used by the witness theorems below: an injective family of
distinct destination identities, a full metrics store, and a request whose
signature header carries exactly the lowercase hex HMAC of its body. -/

/-- An injective family of distinct destination identities. -/
def mkUrl (n : Nat) : String := String.mk (List.replicate n 'a')

/-- A list of `n` distinct urls starting at index `k`. -/
def distinctUrlsFrom : Nat → Nat → List String
  | _, 0 => []
  | k, n + 1 => mkUrl k :: distinctUrlsFrom (k + 1) n

/-- The sequence of 1001 distinct record calls used by the C3 witness. -/
def manyCalls : List RecordCall :=
  (distinctUrlsFrom 0 1001).map fun u => ⟨u, 1, 1, 0, false⟩

/-- A full store: 1000 distinct identities with zeroed counters. -/
def fullState : StatsState :=
  (distinctUrlsFrom 0 1000).map fun u => (u, zeroStats)

/-- Witness secret bytes. -/
def wSecret : List Nat := [107]

/-- Witness body bytes. -/
def wBody : List Nat := [97]

/-- The correct signature for `wBody` under `wSecret`. -/
def wSig : String := hmacSha256Hex wSecret wBody

/-- A witness request that passes `validate_request_signature`. -/
def wAuthInput : AuthInput := ⟨none, some wSig, some wSecret, wBody, 4096⟩

/-- Witness rule set: one rule for legendary entities. -/
def wRules : List ProxyRule :=
  [⟨"http://localhost:9001/legendary", "legendary pokemon", ["legendary==true"]⟩]

/-- Witness entity matching `wRules`. -/
def wPokemon : Entity := ⟨[("legendary", .bool true), ("name", .str "Mewtwo")]⟩

/-! ## Rule engine lemmas -/

theorem find_cons_true {e : Entity} {r : ProxyRule} (rs : List ProxyRule)
    (h : allConditions e r.match_ = .ok true) :
    find_matching_rule e (r :: rs) = .ok (some r) := by
  simp [find_matching_rule, h]

theorem find_cons_false {e : Entity} {r : ProxyRule} (rs : List ProxyRule)
    (h : allConditions e r.match_ = .ok false) :
    find_matching_rule e (r :: rs) = find_matching_rule e rs := by
  simp [find_matching_rule, h]

theorem find_append_skip {e : Entity} {pre : List ProxyRule} (l : List ProxyRule)
    (h : ∀ r ∈ pre, allConditions e r.match_ = .ok false) :
    find_matching_rule e (pre ++ l) = find_matching_rule e l := by
  induction pre with
  | nil => rfl
  | cons r rest ih =>
    rw [List.cons_append, find_cons_false _ (h r (List.mem_cons_self r rest))]
    exact ih fun r' hr' => h r' (List.mem_cons_of_mem r hr')

/-! ## Claim C1 -/

/-- C1 (counterexample): as stated, the claim fails on the code.  For the
entity `hp=5` and the rules `[⟨u1, r1, ["hp>abc"]⟩, ⟨u2, r2, []⟩]`, the only
rule whose conditions all evaluate true is the second (its condition list is
empty), so the claim demands that `find_matching_rule` return it; instead the
first rule's condition raises `TypeError` (Python `5 > "abc"`), which
propagates, and the call returns neither that rule nor `none`. -/
theorem c1_typeerror_counterexample :
    find_matching_rule ⟨[("hp", .int 5)]⟩
        [⟨"u1", "r1", ["hp>abc"]⟩, ⟨"u2", "r2", []⟩] = .error () ∧
      allConditions ⟨[("hp", .int 5)]⟩ (ProxyRule.mk "u2" "r2" []).match_ = .ok true := by
  constructor <;> decide

/-- C1 (amended): provided no condition evaluated along the way raises a
`TypeError`, `find_matching_rule` returns the first rule in declaration order
whose conditions all evaluate true (AND semantics), a rule with an empty
condition list matches unconditionally, and it returns none when no rule
matches, including when the rule list is empty; in particular when the first
rule matches, it is returned whatever the later rules would do. -/
theorem c1_first_match_amended (e₁ e₂ e₃ e₄ e₅ : Entity) (r₂ r₄ : ProxyRule)
    (rs₂ rs₃ post₄ : List ProxyRule) (u₃ re₃ : String)
    (pre₄ rules₅ : List ProxyRule)
    (h₂ : allConditions e₂ r₂.match_ = .ok true)
    (hpre₄ : ∀ r ∈ pre₄, allConditions e₄ r.match_ = .ok false)
    (h₄ : allConditions e₄ r₄.match_ = .ok true)
    (h₅ : ∀ r ∈ rules₅, allConditions e₅ r.match_ = .ok false) :
    find_matching_rule e₁ [] = .ok none ∧
      find_matching_rule e₂ (r₂ :: rs₂) = .ok (some r₂) ∧
      find_matching_rule e₃ (⟨u₃, re₃, []⟩ :: rs₃) = .ok (some ⟨u₃, re₃, []⟩) ∧
      find_matching_rule e₄ (pre₄ ++ r₄ :: post₄) = .ok (some r₄) ∧
      find_matching_rule e₅ rules₅ = .ok none := by
  refine ⟨rfl, find_cons_true _ h₂, find_cons_true _ rfl, ?_, ?_⟩
  · rw [find_append_skip _ hpre₄, find_cons_true _ h₄]
  · have h6 : find_matching_rule e₅ (rules₅ ++ []) = find_matching_rule e₅ [] :=
      find_append_skip [] h₅
    simpa using h6

/-- C1 (witness): the amended theorem applied to the entity
`legendary=true, attack=150` and rules where both the second and third rule
match; the second (earlier) one is returned. -/
theorem c1_first_match_amended_witness :
    find_matching_rule ⟨[("legendary", .bool true), ("attack", .int 150)]⟩
        ([⟨"a", "a", ["legendary==false"]⟩] ++
          ⟨"b", "b", ["attack>100"]⟩ :: [⟨"c", "c", []⟩]) = .ok (some ⟨"b", "b", ["attack>100"]⟩) ∧
      find_matching_rule ⟨[("hp", .int 5)]⟩ [⟨"d", "d", ["hp>9"]⟩] = .ok none :=
  ⟨(c1_first_match_amended ⟨[]⟩ ⟨[]⟩ ⟨[]⟩
      ⟨[("legendary", .bool true), ("attack", .int 150)]⟩ ⟨[("hp", .int 5)]⟩
      ⟨"x", "x", []⟩ ⟨"b", "b", ["attack>100"]⟩ [] [] [⟨"c", "c", []⟩] "u" "re"
      [⟨"a", "a", ["legendary==false"]⟩] [⟨"d", "d", ["hp>9"]⟩]
      rfl (by decide) (by decide) (by decide)).2.2.2.1,
   (c1_first_match_amended ⟨[]⟩ ⟨[]⟩ ⟨[]⟩
      ⟨[("legendary", .bool true), ("attack", .int 150)]⟩ ⟨[("hp", .int 5)]⟩
      ⟨"x", "x", []⟩ ⟨"b", "b", ["attack>100"]⟩ [] [] [⟨"c", "c", []⟩] "u" "re"
      [⟨"a", "a", ["legendary==false"]⟩] [⟨"d", "d", ["hp>9"]⟩]
      rfl (by decide) (by decide) (by decide)).2.2.2.2⟩

/-! ## Claim C9 -/

/-- C9: a condition whose field name does not name an attribute of the entity
evaluates to false, whatever the operator and literal are; no error is
raised. -/
theorem c9_unknown_field (e : Entity) (c n op v : String)
    (hp : parseCondition c = some (n, op, v))
    (hf : lookupField e n = none) :
    _evaluate_condition e c = .ok false := by
  simp [_evaluate_condition, hp, hf]

/-- C9 (witness): `ghost_field==5` against a `attack=100` entity. -/
theorem c9_unknown_field_witness :
    _evaluate_condition ⟨[("attack", .int 100)]⟩ "ghost_field==5" = .ok false :=
  c9_unknown_field ⟨[("attack", .int 100)]⟩ "ghost_field==5" "ghost_field" "==" "5"
    (by decide) (by decide)

/-! ## Claim C4 -/

/-- C4 (counterexample): the claim fails on the code in both of its clauses.
On an integer field with an unparseable literal, `>` raises `TypeError`
(Python `5 > "abc"`) instead of producing false; and on a string field `>`
performs lexicographic comparison, so `name>abc` against `name="zed"` is
true, not false. -/
theorem c4_counterexample :
    _evaluate_condition ⟨[("hp", .int 5)]⟩ "hp>abc" = .error () ∧
      _evaluate_condition ⟨[("name", .str "zed")]⟩ "name>abc" = .ok true := by
  constructor <;> decide

/-- C4 (amended): a condition string that does not match the
`name operator value` pattern evaluates to false; `>`/`<` on a string-typed
field is lexicographic string comparison (not constantly false); `>`/`<` on
an integer-typed field whose literal fails integer parsing raises
`TypeError`; and that combination is the only way condition evaluation can
raise — every other entity/condition pair evaluates to a boolean. -/
theorem c4_condition_totality (e₁ e₂ e₃ e₄ : Entity) (c₁ c₂ c₃ c₄ : String)
    (n₂ v₂ op₂ n₃ v₃ : String) (i₂ : Int) (s₃ : String)
    (h₁ : parseCondition c₁ = none)
    (h₂a : parseCondition c₂ = some (n₂, op₂, v₂))
    (h₂b : op₂ = ">" ∨ op₂ = "<")
    (h₂c : lookupField e₂ n₂ = some (.int i₂))
    (h₂d : pyIntParse v₂ = none)
    (h₃a : parseCondition c₃ = some (n₃, ">", v₃))
    (h₃b : lookupField e₃ n₃ = some (.str s₃))
    (h₄ : _evaluate_condition e₄ c₄ = .error ()) :
    _evaluate_condition e₁ c₁ = .ok false ∧
      _evaluate_condition e₂ c₂ = .error () ∧
      _evaluate_condition e₃ c₃ = .ok (pyStrLt v₃ s₃) ∧
      ∃ n op v i, parseCondition c₄ = some (n, op, v) ∧ (op = ">" ∨ op = "<") ∧
        lookupField e₄ n = some (.int i) ∧ pyIntParse v = none := by
  refine ⟨by simp [_evaluate_condition, h₁], ?_, ?_, ?_⟩
  · rcases h₂b with h | h <;>
      simp [_evaluate_condition, h₂a, h₂c, h, applyOperator, coerceExpected, h₂d, pyGt, pyLt]
  · simp [_evaluate_condition, h₃a, h₃b, applyOperator, coerceExpected, pyGt]
  · rcases hp : parseCondition c₄ with _ | ⟨n, op, v⟩
    · simp [_evaluate_condition, hp] at h₄
    · rcases hf : lookupField e₄ n with _ | fv
      · simp [_evaluate_condition, hp, hf] at h₄
      · simp only [_evaluate_condition, hp, hf, applyOperator] at h₄
        by_cases he : op = "=="
        · simp [he] at h₄
        · by_cases hne : op = "!="
          · simp [he, hne] at h₄
          · by_cases hgt : op = ">"
            · rw [if_neg he, if_neg hne, if_pos hgt] at h₄
              cases fv with
              | bool b => simp [coerceExpected, pyGt] at h₄
              | int i =>
                rcases hv : pyIntParse v with _ | m
                · exact ⟨n, op, v, i, rfl, Or.inl hgt, hf, hv⟩
                · simp [coerceExpected, hv, pyGt] at h₄
              | str s => simp [coerceExpected, pyGt] at h₄
            · by_cases hlt : op = "<"
              · rw [if_neg he, if_neg hne, if_neg hgt, if_pos hlt] at h₄
                cases fv with
                | bool b => simp [coerceExpected, pyLt] at h₄
                | int i =>
                  rcases hv : pyIntParse v with _ | m
                  · exact ⟨n, op, v, i, rfl, Or.inr hlt, hf, hv⟩
                  · simp [coerceExpected, hv, pyLt] at h₄
                | str s => simp [coerceExpected, pyLt] at h₄
              · simp [he, hne, hgt, hlt] at h₄

/-- C4 (witness): the amended theorem at `invalid` (no pattern match),
`hp>abc` on an integer field (raises), and `name>abc` on a string field
(lexicographic, true because `"abc" < "zed"`). -/
theorem c4_condition_totality_witness :
    _evaluate_condition ⟨[("attack", .int 55)]⟩ "invalid" = .ok false ∧
      _evaluate_condition ⟨[("hp", .int 5)]⟩ "hp<abc" = .error () ∧
      _evaluate_condition ⟨[("name", .str "zed")]⟩ "name>abc" = .ok (pyStrLt "abc" "zed") := by
  have h := c4_condition_totality ⟨[("attack", .int 55)]⟩ ⟨[("hp", .int 5)]⟩
    ⟨[("name", .str "zed")]⟩ ⟨[("hp", .int 5)]⟩ "invalid" "hp<abc" "name>abc" "hp>abc"
    "hp" "abc" "<" "name" "abc" 5 "zed"
    (by decide) (by decide) (Or.inr rfl) (by decide) (by decide) (by decide) (by decide) (by decide)
  exact ⟨h.1, h.2.1, h.2.2.1⟩

/-! ## Metrics store lemmas -/

theorem statsKeys_length (s : StatsState) : (statsKeys s).length = s.length :=
  List.length_map s Prod.fst

theorem statsKeys_cons (p : String × EndpointStats) (rest : StatsState) :
    statsKeys (p :: rest) = p.1 :: statsKeys rest := rfl

theorem lookup_eq_none_iff (s : StatsState) (u : String) :
    s.lookup u = none ↔ u ∉ statsKeys s := by
  induction s with
  | nil => simp [statsKeys]
  | cons p rest ih =>
    obtain ⟨k, st⟩ := p
    by_cases h : u = k
    · subst h
      simp [List.lookup, statsKeys]
    · have hb : (u == k) = false := by simp [h]
      simp [List.lookup, hb, ih, statsKeys, h]

theorem lookup_isSome_of_mem {s : StatsState} {u : String} (h : u ∈ statsKeys s) :
    ∃ st, s.lookup u = some st := by
  rcases hl : s.lookup u with _ | st
  · exact absurd ((lookup_eq_none_iff s u).mp hl) (not_not_intro h)
  · exact ⟨st, rfl⟩

theorem statsKeys_append (s t : StatsState) :
    statsKeys (s ++ t) = statsKeys s ++ statsKeys t :=
  List.map_append Prod.fst s t

theorem statsKeys_filter (s : StatsState) (u : String) :
    statsKeys (s.filter fun p => p.1 ≠ u) = (statsKeys s).filter (fun k => k ≠ u) := by
  induction s with
  | nil => rfl
  | cons p rest ih =>
    by_cases h : p.1 = u
    · simp [statsKeys, List.filter, h] at ih ⊢
      exact ih
    · simp [statsKeys, List.filter, h] at ih ⊢
      exact ih

theorem filter_eq_self_of_not_mem {s : StatsState} {u : String} (h : u ∉ statsKeys s) :
    s.filter (fun p => p.1 ≠ u) = s := by
  induction s with
  | nil => rfl
  | cons p rest ih =>
    have h1 : p.1 ≠ u := by
      intro c
      exact h (by rw [statsKeys_cons, c]; exact List.mem_cons_self u _)
    have h2 : u ∉ statsKeys rest := by
      intro c
      exact h (by rw [statsKeys_cons]; exact List.mem_cons_of_mem _ c)
    rw [List.filter_cons, if_pos (by simpa using h1), ih h2]

/-- The keys of the store after `record_request` on an unseen url. -/
theorem statsKeys_record_fresh {s : StatsState} {u : String}
    (h : u ∉ statsKeys s) (i o : Nat) (t : Rat) (b : Bool) :
    statsKeys (record_request u i o t b s) =
      (if MAX_ENDPOINTS ≤ s.length then (statsKeys s).drop 1 else statsKeys s) ++ [u] := by
  rw [record_request, (lookup_eq_none_iff s u).mpr h]
  by_cases hc : MAX_ENDPOINTS ≤ s.length
  · simp [hc, statsKeys_append, statsKeys, List.map_drop]
  · simp [hc, statsKeys_append, statsKeys]

/-- The keys of the store after `record_request` on a seen url. -/
theorem statsKeys_record_existing {s : StatsState} {u : String} {st : EndpointStats}
    (h : s.lookup u = some st) (i o : Nat) (t : Rat) (b : Bool) :
    statsKeys (record_request u i o t b s) =
      (statsKeys s).filter (fun k => k ≠ u) ++ [u] := by
  rw [record_request, h]
  rw [statsKeys_append, statsKeys_filter]
  rfl

theorem filter_ne_eq_self {l : List String} {u : String} (h : u ∉ l) :
    l.filter (fun k => k ≠ u) = l := by
  apply List.filter_eq_self.mpr
  intro a ha
  simp only [ne_eq, decide_eq_true_eq]
  exact fun c => h (c ▸ ha)

theorem length_filter_ne_of_nodup {l : List String} {u : String}
    (hnd : l.Nodup) (hm : u ∈ l) :
    (l.filter (fun k => k ≠ u)).length = l.length - 1 := by
  induction l with
  | nil => cases hm
  | cons a t ih =>
    rcases List.mem_cons.mp hm with rfl | hmt
    · rw [List.filter_cons, if_neg (by simp), filter_ne_eq_self (List.nodup_cons.mp hnd).1]
      simp
    · have ha : a ≠ u := by
        rintro rfl
        exact (List.nodup_cons.mp hnd).1 hmt
      rw [List.filter_cons, if_pos (by simpa using ha)]
      have hlen := ih (List.nodup_cons.mp hnd).2 hmt
      have hpos := List.length_pos_of_mem hmt
      simp only [List.length_cons, hlen]
      omega

theorem statsKeys_record_subset {s : StatsState} (u : String) (i o : Nat) (t : Rat) (b : Bool) :
    ∀ x ∈ statsKeys (record_request u i o t b s), x = u ∨ x ∈ statsKeys s := by
  intro x hx
  rcases hl : s.lookup u with _ | st
  · rw [statsKeys_record_fresh ((lookup_eq_none_iff s u).mp hl) i o t b] at hx
    rcases List.mem_append.mp hx with h | h
    · right
      by_cases hc : MAX_ENDPOINTS ≤ s.length
      · rw [if_pos hc] at h
        exact List.mem_of_mem_drop h
      · rwa [if_neg hc] at h
    · left; simpa using h
  · rw [statsKeys_record_existing hl i o t b] at hx
    rcases List.mem_append.mp hx with h | h
    · exact Or.inr (List.mem_of_mem_filter h)
    · left; simpa using h

/-- Lemma: `record_request` preserves key uniqueness. -/
theorem nodup_record {s : StatsState} (hnd : (statsKeys s).Nodup)
    (u : String) (i o : Nat) (t : Rat) (b : Bool) :
    (statsKeys (record_request u i o t b s)).Nodup := by
  rcases hl : s.lookup u with _ | st
  · rw [statsKeys_record_fresh ((lookup_eq_none_iff s u).mp hl) i o t b]
    have hu := (lookup_eq_none_iff s u).mp hl
    rw [List.nodup_append]
    refine ⟨?_, List.nodup_singleton u, ?_⟩
    · by_cases hc : MAX_ENDPOINTS ≤ s.length
      · rw [if_pos hc]
        exact hnd.sublist (List.drop_sublist 1 _)
      · rwa [if_neg hc]
    · intro x hx hxu
      simp only [List.mem_singleton] at hxu
      subst hxu
      by_cases hc : MAX_ENDPOINTS ≤ s.length
      · rw [if_pos hc] at hx
        exact hu (List.mem_of_mem_drop hx)
      · rw [if_neg hc] at hx
        exact hu hx
  · rw [statsKeys_record_existing hl i o t b]
    rw [List.nodup_append]
    refine ⟨hnd.filter _, List.nodup_singleton u, ?_⟩
    intro x hx hxu
    simp only [List.mem_singleton] at hxu
    subst hxu
    have := List.of_mem_filter hx
    simp at this

/-- Length of one `record_request` step on a store with unique keys. -/
theorem length_record {s : StatsState} (hnd : (statsKeys s).Nodup)
    (u : String) (i o : Nat) (t : Rat) (b : Bool) :
    (record_request u i o t b s).length =
      if u ∈ statsKeys s then s.length
      else if MAX_ENDPOINTS ≤ s.length then s.length else s.length + 1 := by
  rcases hl : s.lookup u with _ | st
  · have hu := (lookup_eq_none_iff s u).mp hl
    rw [record_request, hl, if_neg hu]
    by_cases hc : MAX_ENDPOINTS ≤ s.length
    · have h1 : 1 ≤ s.length := le_trans (by norm_num [MAX_ENDPOINTS]) hc
      simp [hc, List.length_drop]
      omega
    · simp [hc]
  · have hu : u ∈ statsKeys s := by
      by_contra hmem
      rw [(lookup_eq_none_iff s u).mpr hmem] at hl
      exact Option.noConfusion hl
    rw [record_request, hl, if_pos hu]
    have hflen : (s.filter fun p => p.1 ≠ u).length = s.length - 1 := by
      have h1 := congrArg List.length (statsKeys_filter s u)
      rw [statsKeys_length] at h1
      rw [h1, length_filter_ne_of_nodup hnd hu, statsKeys_length]
    have hpos : 1 ≤ s.length := by
      have := List.length_pos_of_mem hu
      rw [statsKeys_length] at this
      omega
    rw [List.length_append, hflen]
    simp
    omega

theorem applyCalls_nil (s : StatsState) : applyCalls [] s = s := rfl

theorem applyCalls_cons (c : RecordCall) (cs : List RecordCall) (s : StatsState) :
    applyCalls (c :: cs) s =
      applyCalls cs
        (record_request c.url c.incoming_bytes c.outgoing_bytes c.response_time_ms c.is_error s) :=
  rfl

/-- Any sequence of `record_request` calls preserves key uniqueness and the
capacity bound. -/
theorem applyCalls_invariant (calls : List RecordCall) (s : StatsState)
    (hnd : (statsKeys s).Nodup) (hlen : s.length ≤ MAX_ENDPOINTS) :
    (statsKeys (applyCalls calls s)).Nodup ∧ (applyCalls calls s).length ≤ MAX_ENDPOINTS := by
  induction calls generalizing s with
  | nil => exact ⟨hnd, hlen⟩
  | cons c cs ih =>
    rw [applyCalls_cons]
    apply ih
    · exact nodup_record hnd _ _ _ _ _
    · rw [length_record hnd]
      by_cases h1 : c.url ∈ statsKeys s
      · simpa [h1] using hlen
      · by_cases h2 : MAX_ENDPOINTS ≤ s.length
        · simp [h1, h2]
          omega
        · simp [h1, h2]
          omega

/-- Inserting distinct unseen identities grows the store up to the capacity
and no further. -/
theorem applyCalls_fresh_length (calls : List RecordCall) (s : StatsState)
    (hnd : (statsKeys s).Nodup) (hlen : s.length ≤ MAX_ENDPOINTS)
    (hfresh : ∀ c ∈ calls, c.url ∉ statsKeys s)
    (hcnd : (calls.map RecordCall.url).Nodup) :
    (applyCalls calls s).length = min (s.length + calls.length) MAX_ENDPOINTS := by
  induction calls generalizing s with
  | nil =>
    rw [applyCalls_nil]
    simp
    omega
  | cons c cs ih =>
    rw [applyCalls_cons]
    have hu : c.url ∉ statsKeys s := hfresh c (List.mem_cons_self c cs)
    have hnd' := nodup_record hnd c.url c.incoming_bytes c.outgoing_bytes c.response_time_ms c.is_error
    have hlen' : (record_request c.url c.incoming_bytes c.outgoing_bytes c.response_time_ms
        c.is_error s).length = if MAX_ENDPOINTS ≤ s.length then s.length else s.length + 1 := by
      rw [length_record hnd, if_neg hu]
    have hle' : (record_request c.url c.incoming_bytes c.outgoing_bytes c.response_time_ms
        c.is_error s).length ≤ MAX_ENDPOINTS := by
      rw [hlen']
      by_cases h2 : MAX_ENDPOINTS ≤ s.length
      · simpa [h2] using hlen
      · simp [h2]
        omega
    have hcnd' : (cs.map RecordCall.url).Nodup := (List.nodup_cons.mp (by simpa using hcnd)).2
    have hfresh' : ∀ d ∈ cs, d.url ∉
        statsKeys (record_request c.url c.incoming_bytes c.outgoing_bytes c.response_time_ms
          c.is_error s) := by
      intro d hd hmem
      rcases statsKeys_record_subset c.url c.incoming_bytes c.outgoing_bytes c.response_time_ms
          c.is_error d.url hmem with h | h
      · have hhd : c.url ∉ cs.map RecordCall.url := (List.nodup_cons.mp (by simpa using hcnd)).1
        exact hhd (h ▸ List.mem_map_of_mem RecordCall.url hd)
      · exact hfresh d (List.mem_cons_of_mem c hd) h
    rw [ih _ hnd' hle' hfresh' hcnd', hlen']
    by_cases h2 : MAX_ENDPOINTS ≤ s.length
    · simp [h2]
      omega
    · simp [h2]
      omega

/-- The rendered snapshot has one entry per stored endpoint. -/
theorem get_all_stats_length (s : StatsState) : (get_all_stats s).length = s.length :=
  List.length_map s _

/-! ## Distinct witness urls -/

theorem mkUrl_inj {m n : Nat} (h : mkUrl m = mkUrl n) : m = n := by
  have := congrArg (fun s => s.data.length) h
  simpa [mkUrl] using this

theorem length_distinctUrlsFrom (k n : Nat) : (distinctUrlsFrom k n).length = n := by
  induction n generalizing k with
  | zero => rfl
  | succ m ih => simp [distinctUrlsFrom, ih]

theorem mem_distinctUrlsFrom {u : String} {k n : Nat} (h : u ∈ distinctUrlsFrom k n) :
    ∃ m, k ≤ m ∧ m < k + n ∧ u = mkUrl m := by
  induction n generalizing k with
  | zero => cases h
  | succ m ih =>
    rcases List.mem_cons.mp h with rfl | h2
    · exact ⟨k, le_refl k, by omega, rfl⟩
    · rcases ih h2 with ⟨j, h3, h4, h5⟩
      exact ⟨j, by omega, by omega, h5⟩

theorem nodup_distinctUrlsFrom (k n : Nat) : (distinctUrlsFrom k n).Nodup := by
  induction n generalizing k with
  | zero => exact List.nodup_nil
  | succ m ih =>
    rw [distinctUrlsFrom, List.nodup_cons]
    refine ⟨?_, ih (k + 1)⟩
    intro hmem
    rcases mem_distinctUrlsFrom hmem with ⟨j, h1, _, h3⟩
    have := mkUrl_inj h3
    omega

theorem head_distinctUrlsFrom (k n : Nat) :
    (distinctUrlsFrom k (n + 1)).head? = some (mkUrl k) := rfl

theorem statsKeys_blank (l : List String) :
    statsKeys (l.map fun u => (u, zeroStats)) = l := by
  simp only [statsKeys, List.map_map]
  exact List.map_id l

theorem head_mem {l : List String} {k : String} (hh : l.head? = some k) : k ∈ l := by
  cases l with
  | nil => cases hh
  | cons a t =>
    have : a = k := by simpa using hh
    exact this ▸ List.mem_cons_self a t

theorem head_not_mem_drop_one {l : List String} {k : String} (hnd : l.Nodup)
    (hh : l.head? = some k) : k ∉ l.drop 1 := by
  cases l with
  | nil => cases hh
  | cons a t =>
    have : a = k := by simpa using hh
    subst this
    simpa using (List.nodup_cons.mp hnd).1

/-! ## Claim C3 -/

/-- C3: the store never holds more than `MAX_ENDPOINTS` (1000) destination
identities: (a) after any call sequence starting from the empty store the
snapshot is at most the capacity; (b) a sequence of calls on more than
`MAX_ENDPOINTS` distinct identities leaves a snapshot of exactly the
capacity; (c, d) an insertion of an unseen identity into a full store drops
exactly the least-recently-touched entry (the front of the order) and
appends the new identity at the most-recent end. -/
theorem c3_capacity_lru_bound (calls : List RecordCall) (s : StatsState)
    (u k : String) (i o : Nat) (t : Rat) (b : Bool)
    (hcnd : (calls.map RecordCall.url).Nodup)
    (hN : MAX_ENDPOINTS < calls.length)
    (hkeys : (statsKeys s).Nodup)
    (hcap : MAX_ENDPOINTS ≤ s.length)
    (hu : u ∉ statsKeys s)
    (hhead : (statsKeys s).head? = some k) :
    (∀ cs : List RecordCall, (get_all_stats (applyCalls cs [])).length ≤ MAX_ENDPOINTS) ∧
      (get_all_stats (applyCalls calls [])).length = MAX_ENDPOINTS ∧
      statsKeys (record_request u i o t b s) = (statsKeys s).drop 1 ++ [u] ∧
      k ∉ statsKeys (record_request u i o t b s) := by
  refine ⟨?_, ?_, ?_, ?_⟩
  · intro cs
    rw [get_all_stats_length]
    exact (applyCalls_invariant cs [] (by simp [statsKeys]) (by norm_num [MAX_ENDPOINTS])).2
  · rw [get_all_stats_length,
      applyCalls_fresh_length calls [] (by simp [statsKeys]) (by norm_num [MAX_ENDPOINTS])
        (by simp [statsKeys]) hcnd]
    simp
    omega
  · rw [statsKeys_record_fresh hu i o t b, if_pos hcap]
  · rw [statsKeys_record_fresh hu i o t b, if_pos hcap]
    intro hmem
    rcases List.mem_append.mp hmem with h | h
    · exact head_not_mem_drop_one hkeys hhead h
    · exact hu ((by simpa using h : k = u) ▸ head_mem hhead)

theorem manyCalls_urls : manyCalls.map RecordCall.url = distinctUrlsFrom 0 1001 := by
  simp only [manyCalls, List.map_map]
  exact List.map_id _

theorem fullState_keys : statsKeys fullState = distinctUrlsFrom 0 1000 :=
  statsKeys_blank _

theorem mkUrl_not_mem_fullState (N : Nat) (hN : 1000 ≤ N) :
    mkUrl N ∉ statsKeys fullState := by
  rw [fullState_keys]
  intro h
  rcases mem_distinctUrlsFrom h with ⟨m, _, hlt, heq⟩
  have := mkUrl_inj heq
  omega

/-- C3 (witness): 1001 distinct identities recorded into the empty store
leave exactly 1000; recording `mkUrl 1000` into the full store of
`mkUrl 0 .. mkUrl 999` evicts `mkUrl 0`, the least-recently-touched key. -/
theorem c3_capacity_lru_bound_witness :
    (get_all_stats (applyCalls manyCalls [])).length = MAX_ENDPOINTS ∧
      statsKeys (record_request (mkUrl 1000) 5 7 1 true fullState) =
        (statsKeys fullState).drop 1 ++ [mkUrl 1000] ∧
      mkUrl 0 ∉ statsKeys (record_request (mkUrl 1000) 5 7 1 true fullState) :=
  (c3_capacity_lru_bound manyCalls fullState (mkUrl 1000) (mkUrl 0) 5 7 1 true
    (by rw [manyCalls_urls]; exact nodup_distinctUrlsFrom 0 1001)
    (by simp [manyCalls, length_distinctUrlsFrom, MAX_ENDPOINTS])
    (by rw [fullState_keys]; exact nodup_distinctUrlsFrom 0 1000)
    (by simp [fullState, length_distinctUrlsFrom, MAX_ENDPOINTS])
    (mkUrl_not_mem_fullState 1000 (le_refl 1000))
    (by rw [fullState_keys]; exact head_distinctUrlsFrom 0 999)).2

/-! ## Claim C7 -/

/-- C7: recording an existing identity `u` moves it to the most-recently-used
end, preserving the relative order of the others; if an unseen identity `v`
is then inserted into the (still full) store, the evicted key `k` is the
head of the refreshed order — the next-least-recently-touched identity — and
not `u`: `u` survives and `k ≠ u`. -/
theorem c7_lru_refresh (s : StatsState) (u v k : String)
    (i1 o1 i2 o2 : Nat) (t1 t2 : Rat) (b1 b2 : Bool)
    (hnd : (statsKeys s).Nodup)
    (hu : u ∈ statsKeys s)
    (hcap : MAX_ENDPOINTS ≤ s.length)
    (hv : v ∉ statsKeys (record_request u i1 o1 t1 b1 s))
    (hk : (statsKeys (record_request u i1 o1 t1 b1 s)).head? = some k) :
    statsKeys (record_request u i1 o1 t1 b1 s) =
        (statsKeys s).filter (fun x => x ≠ u) ++ [u] ∧
      (statsKeys (record_request u i1 o1 t1 b1 s)).getLast? = some u ∧
      u ∈ statsKeys (record_request v i2 o2 t2 b2 (record_request u i1 o1 t1 b1 s)) ∧
      k ∉ statsKeys (record_request v i2 o2 t2 b2 (record_request u i1 o1 t1 b1 s)) ∧
      k ≠ u := by
  obtain ⟨st, hst⟩ := lookup_isSome_of_mem hu
  have hkeys1 := statsKeys_record_existing hst i1 o1 t1 b1
  have hcap1 : MAX_ENDPOINTS ≤ (record_request u i1 o1 t1 b1 s).length := by
    rw [length_record hnd, if_pos hu]
    exact hcap
  have hnd1 := nodup_record hnd u i1 o1 t1 b1
  have hkeys2 := statsKeys_record_fresh hv i2 o2 t2 b2
  rw [if_pos hcap1] at hkeys2
  have hFlen : ((statsKeys s).filter (fun x => x ≠ u)).length = s.length - 1 := by
    rw [length_filter_ne_of_nodup hnd hu, statsKeys_length]
  rcases hF : (statsKeys s).filter (fun x => x ≠ u) with _ | ⟨a, ft⟩
  · exfalso
    rw [hF] at hFlen
    have hc : (1000 : Nat) ≤ s.length := by simpa [MAX_ENDPOINTS] using hcap
    simp at hFlen
    omega
  · have hak : a = k := by
      rw [hkeys1, hF] at hk
      simpa using hk
    subst hak
    have hkmem : a ∈ (statsKeys s).filter (fun x => x ≠ u) := by
      rw [hF]
      exact List.mem_cons_self a ft
    have hkne : a ≠ u := by simpa using List.of_mem_filter hkmem
    have hknotft : a ∉ ft := by
      have hFnd : ((statsKeys s).filter (fun x => x ≠ u)).Nodup := hnd.filter _
      rw [hF] at hFnd
      exact (List.nodup_cons.mp hFnd).1
    have hkmem1 : a ∈ statsKeys (record_request u i1 o1 t1 b1 s) := by
      rw [hkeys1]
      exact List.mem_append_left _ hkmem
    have hknev : a ≠ v := fun c => hv (c ▸ hkmem1)
    have hdrop : (statsKeys (record_request u i1 o1 t1 b1 s)).drop 1 = ft ++ [u] := by
      rw [hkeys1, hF]
      rfl
    refine ⟨by rw [hkeys1, hF], ?_, ?_, ?_, hkne⟩
    · rw [hkeys1, hF]
      exact List.getLast?_concat _
    · rw [hkeys2, hdrop]
      exact List.mem_append_left _ (List.mem_append_right _ (List.mem_singleton.mpr rfl))
    · rw [hkeys2, hdrop]
      intro hmem
      rcases List.mem_append.mp hmem with h | h
      · rcases List.mem_append.mp h with h2 | h2
        · exact hknotft h2
        · exact hkne (by simpa using h2)
      · exact hknev (by simpa using h)

theorem fullState_lookup0 : fullState.lookup (mkUrl 0) = some zeroStats := rfl

theorem mkUrl0_not_mem_tail : mkUrl 0 ∉ distinctUrlsFrom 1 999 := by
  intro h
  rcases mem_distinctUrlsFrom h with ⟨m, h1, _, h3⟩
  have := mkUrl_inj h3
  omega

/-- The refreshed key order after touching `mkUrl 0` in the full store. -/
theorem fullState_touch_keys :
    statsKeys (record_request (mkUrl 0) 2 3 1 false fullState) =
      distinctUrlsFrom 1 999 ++ [mkUrl 0] := by
  rw [statsKeys_record_existing fullState_lookup0, fullState_keys]
  have h1 : distinctUrlsFrom 0 1000 = mkUrl 0 :: distinctUrlsFrom 1 999 := rfl
  rw [h1, List.filter_cons, if_neg (by simp)]
  rw [filter_ne_eq_self mkUrl0_not_mem_tail]

/-- C7 (witness): in the full store `mkUrl 0 .. mkUrl 999`, touching
`mkUrl 0` (the least-recently-used key) moves it to the most-recent end;
inserting the unseen `mkUrl 1000` then evicts `mkUrl 1`, not `mkUrl 0`. -/
theorem c7_lru_refresh_witness :
    statsKeys (record_request (mkUrl 0) 2 3 1 false fullState) =
        (statsKeys fullState).filter (fun x => x ≠ mkUrl 0) ++ [mkUrl 0] ∧
      (statsKeys (record_request (mkUrl 0) 2 3 1 false fullState)).getLast? = some (mkUrl 0) ∧
      mkUrl 0 ∈ statsKeys (record_request (mkUrl 1000) 4 5 2 true
        (record_request (mkUrl 0) 2 3 1 false fullState)) ∧
      mkUrl 1 ∉ statsKeys (record_request (mkUrl 1000) 4 5 2 true
        (record_request (mkUrl 0) 2 3 1 false fullState)) ∧
      mkUrl 1 ≠ mkUrl 0 :=
  c7_lru_refresh fullState (mkUrl 0) (mkUrl 1000) (mkUrl 1) 2 3 4 5 1 2 false true
    (by rw [fullState_keys]; exact nodup_distinctUrlsFrom 0 1000)
    (by rw [fullState_keys]; exact List.mem_cons_self _ _)
    (by simp [fullState, length_distinctUrlsFrom, MAX_ENDPOINTS])
    (by
      intro h
      rcases statsKeys_record_subset (mkUrl 0) 2 3 1 false (mkUrl 1000) h with h2 | h2
      · have := mkUrl_inj h2
        omega
      · exact mkUrl_not_mem_fullState 1000 (le_refl 1000) h2)
    (by rw [fullState_touch_keys]; rfl)

theorem wAuth_ok : validate_request_signature wAuthInput = .ok wBody := by
  have hsig : validate_signature wBody wSig wSecret = true := by
    simp only [validate_signature, decide_eq_true_eq]
    rfl
  have hne : ¬ (wSig = "") := by decide
  have hlen : ¬ (4096 < wBody.length) := by decide
  have hbody : ¬ (wBody = []) := by decide
  simp [validate_request_signature, wAuthInput, contentLengthCheck, hne, hlen, hbody, hsig]

/-! ## Claim C2 -/

/-- C2: a request that reaches the Matched state produces exactly one
`record_request` call, keyed by the matched rule's url and carrying the
measured elapsed time, on both the dispatched and dispatch-failed branches
(`disp` is arbitrary); its `is_error` flag is true iff dispatch raised or the
downstream status was ≥ 400; a request failing authentication, or failing
decode, short-circuits to the error response with no record call at all. -/
theorem c2_metrics_accounting
    (inp inp2 : AuthInput) (body : List Nat) (pok : Entity)
    (rules rules2 : List ProxyRule) (rule : ProxyRule) (outB outB2 : Nat)
    (disp disp2 : Except TransportError DownstreamResponse) (t t2 : Rat)
    (err errD : Nat × String) (dec2 : Except (Nat × String) Entity)
    (hauth : validate_request_signature inp = .ok body)
    (hmatch : find_matching_rule pok rules = .ok (some rule))
    (hauth2 : validate_request_signature inp2 = .error err) :
    (stream inp (.ok pok) rules true outB disp t).2 =
        [⟨rule.url, body.length, outB, t, dispatch_is_error disp⟩] ∧
      (dispatch_is_error disp = true ↔
        (∃ e, disp = .error e) ∨ ∃ r, disp = .ok r ∧ 400 ≤ r.status_code) ∧
      stream inp2 dec2 rules2 true outB2 disp2 t2 = (.httpError err.1 err.2, []) ∧
      stream inp (.error errD) rules true outB disp t = (.httpError errD.1 errD.2, []) := by
  refine ⟨?_, ?_, ?_, ?_⟩
  · cases disp with
    | error e => simp [stream, hauth, hmatch]
    | ok r => simp [stream, hauth, hmatch]
  · cases disp with
    | error e => simp [dispatch_is_error]
    | ok r =>
      simp only [dispatch_is_error, decide_eq_true_eq]
      constructor
      · intro h
        exact Or.inr ⟨r, rfl, h⟩
      · intro h
        rcases h with ⟨e, he⟩ | ⟨r2, hr2, hs⟩
        · cases he
        · cases hr2
          exact hs
  · simp [stream, hauth2]
  · simp [stream, hauth]

/-- C2 (witness): the theorem at the concrete signed request `wAuthInput`,
the matching legendary rule, a successful 200 dispatch, and a second request
with no signature header at all. -/
theorem c2_metrics_accounting_witness :
    (stream wAuthInput (.ok wPokemon) wRules true 10 (.ok ⟨200, [], "ok"⟩) 5).2 =
        [⟨"http://localhost:9001/legendary", wBody.length, 10, 5,
          dispatch_is_error (.ok ⟨200, [], "ok"⟩)⟩] ∧
      stream ⟨none, none, none, [], 4096⟩ (.ok wPokemon) wRules true 3 (.ok ⟨200, [], "ok"⟩) 2 =
        (.httpError 401 "Missing X-Grd-Signature header", []) ∧
      stream wAuthInput (.error (400, "Failed to parse protobuf")) wRules true 10
          (.ok ⟨200, [], "ok"⟩) 5 =
        (.httpError 400 "Failed to parse protobuf", []) := by
  have h := c2_metrics_accounting wAuthInput ⟨none, none, none, [], 4096⟩ wBody wPokemon
    wRules wRules ⟨"http://localhost:9001/legendary", "legendary pokemon", ["legendary==true"]⟩
    10 3 (.ok ⟨200, [], "ok"⟩) (.ok ⟨200, [], "ok"⟩) 5 2
    (401, "Missing X-Grd-Signature header") (400, "Failed to parse protobuf") (.ok wPokemon)
    wAuth_ok (by decide) (by decide)
  exact ⟨h.1, h.2.2.1, h.2.2.2⟩

/-! ## Claim C6 -/

/-- C6: the failure classification of `_map_downstream_error` — timeout to
504, any other transport connectivity failure to 502, any other unexpected
exception to 502 — and a downstream response with status ≥ 400 is not a
failure: it is relayed (no exception) with exactly the hop-by-hop denylist
(connection, keep-alive, transfer-encoding, content-encoding, te, trailers,
upgrade) stripped case-insensitively from its headers, while the request is
still recorded with `is_error = true`. -/
theorem c6_dispatch_classification (inp : AuthInput) (body : List Nat) (pok : Entity)
    (rules : List ProxyRule) (rule : ProxyRule) (outB : Nat) (t : Rat) (r : DownstreamResponse)
    (hauth : validate_request_signature inp = .ok body)
    (hmatch : find_matching_rule pok rules = .ok (some rule))
    (hstatus : 400 ≤ r.status_code) :
    _map_downstream_error .timeout = (504, "Downstream service timeout") ∧
      _map_downstream_error .requestError = (502, "Failed to connect to downstream service") ∧
      _map_downstream_error .unexpected = (502, "Failed to forward request to downstream") ∧
      stream inp (.ok pok) rules true outB (.ok r) t =
        (.response r.status_code (_filter_response_headers r.headers) r.content,
          [⟨rule.url, body.length, outB, t, true⟩]) ∧
      _filter_response_headers r.headers =
        r.headers.filter (fun p => ¬ (strLower p.1 ∈ ["connection", "keep-alive",
          "transfer-encoding", "content-encoding", "te", "trailers", "upgrade"])) := by
  refine ⟨rfl, rfl, rfl, ?_, rfl⟩
  simp [stream, hauth, hmatch, dispatch_is_error, hstatus]

/-- C6 (witness): a 404 downstream response with a `Connection` header is
relayed as a 404 with that header stripped, and recorded as an error. -/
theorem c6_dispatch_classification_witness :
    _map_downstream_error .timeout = (504, "Downstream service timeout") ∧
      _map_downstream_error .requestError = (502, "Failed to connect to downstream service") ∧
      _map_downstream_error .unexpected = (502, "Failed to forward request to downstream") ∧
      stream wAuthInput (.ok wPokemon) wRules true 10
          (.ok ⟨404, [("Connection", "close"), ("X-Ok", "1")], "nf"⟩) 5 =
        (.response 404
          (_filter_response_headers [("Connection", "close"), ("X-Ok", "1")]) "nf",
          [⟨"http://localhost:9001/legendary", wBody.length, 10, 5, true⟩]) ∧
      _filter_response_headers [("Connection", "close"), ("X-Ok", "1")] =
        [("Connection", "close"), ("X-Ok", "1")].filter
          (fun p => ¬ (strLower p.1 ∈ ["connection", "keep-alive", "transfer-encoding",
            "content-encoding", "te", "trailers", "upgrade"])) :=
  c6_dispatch_classification wAuthInput wBody wPokemon wRules
    ⟨"http://localhost:9001/legendary", "legendary pokemon", ["legendary==true"]⟩ 10 5
    ⟨404, [("Connection", "close"), ("X-Ok", "1")], "nf"⟩
    wAuth_ok (by decide) (by decide)

/-! ## Claim C8 -/

/-- C8 (counterexample): the no-match response body produced by the code is
the 22-character string with a space after the colon, not the 21-character
JSON text the claim states; the two differ. -/
theorem c8_counterexample :
    (stream wAuthInput (.ok ⟨[]⟩) wRules true 0 (.ok ⟨200, [], ""⟩) 0).1 =
        .response 200 [("content-type", "application/json")] "\x7b\"status\": \"no_match\"\x7d" ∧
      "\x7b\"status\": \"no_match\"\x7d" ≠ "\x7b\"status\":\"no_match\"\x7d" := by
  constructor
  · have hnm : find_matching_rule ⟨[]⟩ wRules = .ok none := by decide
    simp [stream, wAuth_ok, hnm, noMatchBody]
  · decide

/-- C8 (amended): when no rule matches, the pipeline responds 200 with body
exactly `\x7b"status": "no_match"\x7d` (with a space after the colon), and
makes exactly one record call under the sentinel identity `__unmatched__`
with the body size as incoming bytes, zero outgoing bytes and
`is_error = false`; applied to the empty store this creates exactly one
entry with `outgoing_bytes = 0` and `error_count = 0`. -/
theorem c8_no_match_response (inp : AuthInput) (body : List Nat) (pok : Entity)
    (rules : List ProxyRule) (clientReady : Bool) (outB : Nat)
    (disp : Except TransportError DownstreamResponse) (t : Rat)
    (hauth : validate_request_signature inp = .ok body)
    (hmatch : find_matching_rule pok rules = .ok none) :
    stream inp (.ok pok) rules clientReady outB disp t =
        (.response 200 [("content-type", "application/json")] "\x7b\"status\": \"no_match\"\x7d",
          [⟨unmatchedUrl, body.length, 0, 0, false⟩]) ∧
      record_request unmatchedUrl body.length 0 0 false [] =
        [(unmatchedUrl, ⟨1, 0, body.length, 0, 0⟩)] := by
  constructor
  · simp [stream, hauth, hmatch, noMatchBody]
  · simp [record_request, bumpStats, zeroStats, MAX_ENDPOINTS]

/-- C8 (witness): the amended theorem at the concrete signed request and a
non-matching entity. -/
theorem c8_no_match_response_witness :
    stream wAuthInput (.ok ⟨[]⟩) wRules true 0 (.ok ⟨200, [], ""⟩) 0 =
        (.response 200 [("content-type", "application/json")] "\x7b\"status\": \"no_match\"\x7d",
          [⟨unmatchedUrl, wBody.length, 0, 0, false⟩]) ∧
      record_request unmatchedUrl wBody.length 0 0 false [] =
        [(unmatchedUrl, ⟨1, 0, wBody.length, 0, 0⟩)] :=
  c8_no_match_response wAuthInput wBody ⟨[]⟩ wRules true 0 (.ok ⟨200, [], ""⟩) 0
    wAuth_ok (by decide)

/-! ## Claim C10 -/

/-- C10: a present but unparseable `Content-Length` header silently passes
the early size screen (the `ValueError` is swallowed), and a request whose
actual body exceeds the limit is still rejected 413 by the post-read check. -/
theorem c10_malformed_content_length (maxB : Nat) (cl sig : String)
    (secret body : List Nat)
    (hcl : pyIntParse cl = none) (hne : cl ≠ "") (hsig : sig ≠ "")
    (hbig : maxB < body.length) :
    contentLengthCheck maxB (some cl) = .ok () ∧
      validate_request_signature ⟨some cl, some sig, some secret, body, maxB⟩ =
        .error (413, "Request body too large") := by
  have h1 : contentLengthCheck maxB (some cl) = .ok () := by
    simp [contentLengthCheck, hne, hcl]
  refine ⟨h1, ?_⟩
  simp [validate_request_signature, h1, hsig, hbig]

/-- C10 (witness): `Content-Length: 12x` with a 3-byte body over a 2-byte
limit: the malformed header is ignored, the post-read check rejects 413. -/
theorem c10_malformed_content_length_witness :
    contentLengthCheck 2 (some "12x") = .ok () ∧
      validate_request_signature ⟨some "12x", some "s", some [1], [0, 0, 0], 2⟩ =
        .error (413, "Request body too large") :=
  c10_malformed_content_length 2 "12x" "s" [1] [0, 0, 0]
    (by decide) (by decide) (by decide) (by decide)

/-! ## Claim C5 -/

theorem string_length_mk (l : List Char) : (String.mk l).length = l.length := rfl

theorem bytesToHex_length (bs : List Nat) : (bytesToHex bs).length = 2 * bs.length := by
  rw [bytesToHex, string_length_mk]
  induction bs with
  | nil => rfl
  | cons b rest ih =>
    simp only [List.foldr_cons, List.length_cons]
    omega

theorem sha256Bytes_length (msg : List Nat) : (sha256Bytes msg).length = 32 := by
  rw [sha256Bytes]
  simp [be32]

theorem hmacSha256Hex_length (key msg : List Nat) : (hmacSha256Hex key msg).length = 64 := by
  rw [hmacSha256Hex, bytesToHex_length, hmacSha256, sha256Bytes_length]

theorem hexDigit_lower : ∀ m, m < 16 → isLowerHexChar (hexDigit m) = true := by decide

theorem bytesToHex_chars (bs : List Nat) :
    ∀ c ∈ (bytesToHex bs).data, isLowerHexChar c = true := by
  induction bs with
  | nil =>
    intro c hc
    simp [bytesToHex] at hc
  | cons b rest ih =>
    intro c hc
    rw [bytesToHex] at hc
    simp only [List.foldr_cons] at hc
    have hc2 : c ∈ hexDigit (b >>> 4 &&& 15) :: hexDigit (b &&& 15) ::
        (bytesToHex rest).data := hc
    rcases List.mem_cons.mp hc2 with rfl | hc3
    · refine hexDigit_lower _ ?_
      have h1 : b >>> 4 &&& 15 ≤ 15 := Nat.and_le_right
      omega
    · rcases List.mem_cons.mp hc3 with rfl | hc4
      · refine hexDigit_lower _ ?_
        have h1 : b &&& 15 ≤ 15 := Nat.and_le_right
        omega
      · exact ih c hc4

/-- Every character of a hex digest is a lowercase hex digit; in particular
uppercase hex and non-hex characters never occur in it. -/
theorem hmacSha256Hex_chars (key msg : List Nat) :
    ∀ c ∈ (hmacSha256Hex key msg).data, isLowerHexChar c = true :=
  fun c hc => bytesToHex_chars (hmacSha256 key msg) c hc

/-- C5: a body authenticated against its own lowercase hex HMAC-SHA256 under
the same secret is accepted; a different body whose digest differs (the
cryptographic premise of the claim — HMAC collisions are not exhibitable) is
rejected; a signature of the wrong length is rejected; and a signature
containing any character that is not a lowercase hex digit — a non-hex
character or an uppercase one, whatever the signature's length — is
rejected, because the computed digest consists of lowercase hex digits only.
All rejections are a plain `false`, never an exception: `validate_signature`
is a total boolean function, and the `TypeError` of `compare_digest` on
non-ASCII input is caught and returned as `False`. -/
theorem c5_signature_validation (secret body body2 : List Nat) (sig sig2 : String) (c : Char)
    (hneq : hmacSha256Hex secret body ≠ hmacSha256Hex secret body2)
    (hlen : sig.length ≠ 64)
    (hbad : c ∈ sig2.data) (hnot : isLowerHexChar c = false) :
    validate_signature body (hmacSha256Hex secret body) secret = true ∧
      validate_signature body2 (hmacSha256Hex secret body) secret = false ∧
      validate_signature body sig secret = false ∧
      validate_signature body sig2 secret = false := by
  refine ⟨by simp [validate_signature], ?_, ?_, ?_⟩
  · simp only [validate_signature, decide_eq_false_iff_not]
    exact fun h => hneq h.symm
  · simp only [validate_signature, decide_eq_false_iff_not]
    intro h
    apply hlen
    rw [← h]
    exact hmacSha256Hex_length secret body
  · simp only [validate_signature, decide_eq_false_iff_not]
    intro h
    have hmem : c ∈ (hmacSha256Hex secret body).data := by
      rw [h]
      exact hbad
    have h2 := hmacSha256Hex_chars secret body c hmem
    rw [hnot] at h2
    exact Bool.noConfusion h2

/-- C5 (witness): the theorem at the one-byte secret `0x6b` and bodies
`"a"`/`"b"`, whose HMAC digests are distinct (checked by evaluation), the
2-character signature `"zz"`, and a 64-character all-uppercase signature —
correct length, rejected for its case alone. -/
theorem c5_signature_validation_witness :
    validate_signature [97] (hmacSha256Hex [107] [97]) [107] = true ∧
      validate_signature [98] (hmacSha256Hex [107] [97]) [107] = false ∧
      validate_signature [97] "zz" [107] = false ∧
      validate_signature [97] (String.mk (List.replicate 64 'Z')) [107] = false :=
  c5_signature_validation [107] [97] [98] "zz" (String.mk (List.replicate 64 'Z')) 'Z'
    (by decide) (by decide) (by decide) (by decide)

/-! ## Embedding checks

Concrete evaluations matching the behavior of the Python implementation on
the inputs exercised by the repository test-suite (`test_proxy_rules.py`). -/

/-- Whitespace handling of the condition regex, as in the source tests. -/
theorem check_parse_whitespace :
    parseCondition "  attack == 100  " = some ("attack", "==", "100") := by decide

/-- Strings without an operator, or empty, do not match the pattern. -/
theorem check_parse_invalid :
    parseCondition "invalid" = none ∧ parseCondition "" = none := by decide

/-- There is no `>=` operator: the regex reads `hp>=5` as `hp > "=5"`. -/
theorem check_parse_ge :
    parseCondition "hp>=5" = some ("hp", ">", "=5") := by decide

/-- The Python `int()` model: sign, single underscores between digits. -/
theorem check_pyIntParse :
    pyIntParse "100" = some 100 ∧ pyIntParse "-7" = some (-7) ∧
      pyIntParse "1_0" = some 10 ∧ pyIntParse "1__0" = none ∧
      pyIntParse "abc" = none := by decide

/-- Condition evaluation on the test-suite inputs: integer and boolean
equality, string inequality, numeric comparison and its boundary. -/
theorem check_evaluate_condition :
    _evaluate_condition ⟨[("attack", .int 55)]⟩ "attack==55" = .ok true ∧
      _evaluate_condition ⟨[("legendary", .bool true)]⟩ "legendary==true" = .ok true ∧
      _evaluate_condition ⟨[("name", .str "Pikachu")]⟩ "name!=Charmander" = .ok true ∧
      _evaluate_condition ⟨[("attack", .int 100)]⟩ "attack>99" = .ok true ∧
      _evaluate_condition ⟨[("attack", .int 100)]⟩ "attack>100" = .ok false ∧
      _evaluate_condition ⟨[("attack", .int 100)]⟩ "unknown_field==value" = .ok false := by
  refine ⟨by decide, by decide, by decide, by decide, by decide, by decide⟩

/-- The whitespace-only-literal corner of the regex: the lazy group can
capture a single whitespace character, so such conditions are real matches
(verified against CPython), and they reach the comparison: on an integer
field `>` then raises `TypeError`, and on a string field holding a space,
`==` against the one-space literal is true. -/
theorem check_whitespace_literal :
    parseCondition "hp>  " = some ("hp", ">", " ") ∧
      parseCondition "hp> \n" = some ("hp", ">", " ") ∧
      parseCondition "hp>\n" = none ∧
      parseCondition "hp>" = none ∧
      _evaluate_condition ⟨[("hp", .int 5)]⟩ "hp>  " = .error () ∧
      _evaluate_condition ⟨[("name", .str " ")]⟩ "name== " = .ok true := by
  refine ⟨by decide, by decide, by decide, by decide, by decide, by decide⟩

/-- The SHA-256 implementation reproduces the FIPS 180-4 test vector for
`"abc"`. -/
theorem check_sha256_abc :
    bytesToHex (sha256Bytes [97, 98, 99]) =
      "ba7816bf8f01cfea414140de5dae2223b00361a396177a9cb410ff61f20015ad" := by decide

